import Mathlib

/-!
Shallow embedding of the logivault-ai AI gateway (frontend services and
components, plus the spec-described backend parts that are not in the
repository snapshot), together with theorems checking the specification's
claims against it.

Source files embedded:
  * frontend/src/services/api.js            (submitPromptToClaude retry loop)
  * frontend/src/components/ClaudeEditor.jsx (isValidResponse, extractContent, handleSubmit)
  * frontend/src/services/optimization.js   (cleanResponse)
  * frontend/src/sessionLogger.js and frontend/src/services/sessionLogger.js (logSession)
  * frontend App.js (handleSubmit prompt guard)
  * backend token-bucket limiter and request handler: modelled from the spec,
    the backend Python source not being part of the snapshot.
-/

namespace LogiVault

/-- A JavaScript value, as far as the embedded code inspects one: the parsed
JSON payloads flowing through the gateway.  `vNull` stands for both JS
`null` and `undefined`: the embedded code never distinguishes them (it only
applies truthiness, `typeof x === 'string'` and `Array.isArray` to fields,
and all three agree on `null` and `undefined`). -/
inductive JSValue
  | vNull
  | vBool (b : Bool)
  | vNum (n : Int)
  | vStr (s : String)
  | vArr (elems : List JSValue)
  | vObj (fields : List (String × JSValue))

namespace JSValue

/-- JS truthiness of a value: `null`/`undefined`, `false`, `0` and `""` are
falsy; objects and arrays are always truthy. -/
def truthy : JSValue → Bool
  | vNull => false
  | vBool b => b
  | vNum n => n != 0
  | vStr s => s ≠ ""
  | vArr _ => true
  | vObj _ => true

/-- `typeof v === 'string'`. -/
def typeofIsString : JSValue → Bool
  | vStr _ => true
  | _ => false

/-- `typeof v === 'object'`: true for objects, arrays and `null`. -/
def typeofIsObject : JSValue → Bool
  | vObj _ => true
  | vArr _ => true
  | vNull => true
  | _ => false

/-- `Array.isArray(v)`. -/
def isArrayV : JSValue → Bool
  | vArr _ => true
  | _ => false

/-- Property access `v.name`: field lookup on an object, `undefined`
(embedded as `vNull`) on a missing field or a non-object. -/
def getField : JSValue → String → JSValue
  | vObj fields, name =>
      match fields.lookup name with
      | some v => v
      | none => vNull
  | _, _ => vNull

/-- Index access `v[0]`: the first element of an array, `undefined`
(embedded as `vNull`) when the array is empty or `v` is not an array. -/
def index0 : JSValue → JSValue
  | vArr (x :: _) => x
  | _ => vNull

/-- The string carried by a `vStr`, `""` otherwise. -/
def asString : JSValue → String
  | vStr s => s
  | _ => ""

end JSValue

open JSValue

/-- `isValidResponse` from ClaudeEditor.jsx:
`data && typeof data === 'object' && ((data.content && typeof data.content === 'string')
|| (Array.isArray(data.content) && data.content[0] && typeof data.content[0].text === 'string'))`. -/
def isValidResponse (data : JSValue) : Bool :=
  data.truthy && data.typeofIsObject &&
    (((data.getField "content").truthy && (data.getField "content").typeofIsString) ||
     ((data.getField "content").isArrayV && (data.getField "content").index0.truthy &&
      ((data.getField "content").index0.getField "text").typeofIsString))

/-- `extractContent` from ClaudeEditor.jsx: returns `data.content` when it is a
string, the first block's `text` when `content` is an array whose head has a
string `text`, and `null` otherwise. -/
def extractContent (data : JSValue) : JSValue :=
  if (data.getField "content").typeofIsString then
    data.getField "content"
  else if (data.getField "content").isArrayV && (data.getField "content").index0.truthy &&
      ((data.getField "content").index0.getField "text").typeofIsString then
    (data.getField "content").index0.getField "text"
  else
    vNull

/-! ## The resilient upstream client (frontend/src/services/api.js) -/

/-- What one `fetch` of `POST /generate` comes back with, as far as
`submitPromptToClaude` inspects it: a 2xx response with a parsed JSON body, a
non-2xx response carrying its status, the `detail` field of its JSON error
body (`""` when absent or unparsable, matching `errorData.detail` being
falsy), and its status text, or a rejected fetch (network error) carrying the
exception's message. -/
inductive FetchResult
  | ok (body : JSValue)
  | httpError (status : Nat) (detail statusText : String)
  | networkError (msg : String)

/-- `sub` occurs as a contiguous subsequence starting at some position of
`l`. -/
def jsIncludesL (sub : List Char) : List Char → Bool
  | [] => sub.isPrefixOf ([] : List Char)
  | c :: t => sub.isPrefixOf (c :: t) || jsIncludesL sub t

/-- `s.includes(sub)` from JS: `sub` occurs as a substring of `s`. -/
def jsIncludes (s sub : String) : Bool :=
  jsIncludesL sub.toList s.toList

/-- The error message `submitPromptToClaude` throws on a non-2xx response:
a status-specific `userMessage` followed by `(errorMessage)`, where
`errorMessage` is `errorData.detail || response.statusText`. -/
def errorMessageFor (status : Nat) (detail statusText : String) : String :=
  let errorMessage := if detail = "" then statusText else detail
  let userMessage :=
    if status = 400 then "Invalid request: Please check your prompt and try again."
    else if status = 401 then "Authentication failed: Please check API key configuration."
    else if status = 429 then "Rate limit exceeded: Please wait before trying again."
    else if status = 500 then "Server error: Please try again later."
    else if 500 ≤ status then "Service unavailable: Please try again later."
    else "Claude API Error: " ++ toString status
  userMessage ++ " (" ++ errorMessage ++ ")"

/-- The message of the error the `try` block of attempt `k` throws, if the
attempt fails. -/
def attemptErrMsg : FetchResult → Option String
  | .ok _ => none
  | .httpError status detail statusText => some (errorMessageFor status detail statusText)
  | .networkError msg => some msg

/-- The observable outcome of one run of `submitPromptToClaude`: the returned
JSON body or the thrown error's message, the number of upstream calls
performed, and the list of backoff sleeps awaited, in order, in
milliseconds. -/
structure RunResult where
  result : Except String JSValue
  calls : Nat
  sleeps : List Nat

/-- The retry loop of `submitPromptToClaude`, from attempt number `attempt`
on: `remaining` counts the loop iterations still allowed (the loop runs
while `attempt ≤ retries`, so `remaining = retries + 1 - attempt`);
`lastError` is the message of the most recent failure (`""` before any
attempt); `calls` and `sleeps` accumulate the performed calls and backoff
sleeps.  On a 2xx response the body is returned; on a failure the error
message is recorded and, unless it contains `'400'` or `'401'` (the loop
`break`s then), the loop sleeps `delay * attempt` ms and retries; leaving
the loop throws `lastError`. -/
def submitLoop (upstream : Nat → FetchResult) (delay : Nat) :
    Nat → Nat → String → Nat → List Nat → RunResult
  | 0, _, lastError, calls, sleeps => ⟨.error lastError, calls, sleeps⟩
  | remaining + 1, attempt, _, calls, sleeps =>
    match upstream attempt with
    | .ok body => ⟨.ok body, calls + 1, sleeps⟩
    | .httpError status detail statusText =>
      let msg := errorMessageFor status detail statusText
      if jsIncludes msg "400" || jsIncludes msg "401" then
        ⟨.error msg, calls + 1, sleeps⟩
      else
        submitLoop upstream delay remaining (attempt + 1) msg (calls + 1)
          (sleeps ++ [delay * attempt])
    | .networkError msg =>
      if jsIncludes msg "400" || jsIncludes msg "401" then
        ⟨.error msg, calls + 1, sleeps⟩
      else
        submitLoop upstream delay remaining (attempt + 1) msg (calls + 1)
          (sleeps ++ [delay * attempt])

/-- `submitPromptToClaude(promptText, retries = 3, delay = 1000)`:
the retry loop starting at attempt 1 with `retries` iterations allowed.  The
prompt itself does not influence the control flow, which is driven by
`upstream`, the outcome of the fetch at each attempt number. -/
def submitPromptToClaude (upstream : Nat → FetchResult)
    (retries : Nat := 3) (delay : Nat := 1000) : RunResult :=
  submitLoop upstream delay retries 1 "" 0 []

/-! ## Response cleaning (frontend/src/services/optimization.js)

`cleanResponse` is
`rawText.replace(/\r?\n\s*\r?\n/g, '\n\n').replace(/\s{2,}/g, ' ').trim()`.
The two regex passes and `trim` are embedded below as character-list
functions, with the JS whitespace class `\s` (which is also the character
set `String.prototype.trim` strips). -/

/-- The JS regex class `\s` (and the set `trim` strips): tab, LF, VT, FF,
CR, space, NBSP, and the Unicode space separators and BOM. -/
def jsWhitespace (c : Char) : Bool :=
  let n := c.toNat
  (n = 9) || (n = 10) || (n = 11) || (n = 12) || (n = 13) || (n = 32) ||
  (n = 160) || (n = 0x1680) || (0x2000 ≤ n && n ≤ 0x200a) ||
  (n = 0x2028) || (n = 0x2029) || (n = 0x202f) || (n = 0x205f) ||
  (n = 0x3000) || (n = 0xfeff)

/-- The greedy tail `\s*\r?\n` of the first regex: given the characters
following a leading `\r?\n`, consume the longest all-whitespace prefix that
ends with a `\n` and return the remainder; `none` when no such prefix exists
(that is, when no further `\n` is reachable through whitespace). -/
def matchTail : List Char → Option (List Char)
  | [] => none
  | c :: rest =>
    if jsWhitespace c then
      match matchTail rest with
      | some r => some r
      | none => if c = '\n' then some rest else none
    else none

/-- The first pass, `replace(/\r?\n\s*\r?\n/g, '\n\n')`, on `fuel` more
scan positions: scan left to right; at an optional `\r` followed by `\n`,
try the greedy tail `\s*\r?\n`; on a match replace the whole match by
`"\n\n"` and continue after it, otherwise (and at any other character) emit
the character and move on.  Every step consumes at least one input
character, so starting the scan with `fuel = l.length` (as
`collapseBlankLines` does) the fuel never runs out. -/
def collapseBlankLinesGo : Nat → List Char → List Char
  | 0, l => l
  | _ + 1, [] => []
  | fuel + 1, '\r' :: '\n' :: rest =>
    match matchTail rest with
    | some r => '\n' :: '\n' :: collapseBlankLinesGo fuel r
    | none => '\r' :: collapseBlankLinesGo fuel ('\n' :: rest)
  | fuel + 1, '\n' :: rest =>
    match matchTail rest with
    | some r => '\n' :: '\n' :: collapseBlankLinesGo fuel r
    | none => '\n' :: collapseBlankLinesGo fuel rest
  | fuel + 1, c :: rest => c :: collapseBlankLinesGo fuel rest

/-- The first regex pass over a whole character list. -/
def collapseBlankLines (l : List Char) : List Char :=
  collapseBlankLinesGo l.length l

/-- The second pass, `replace(/\s{2,}/g, ' ')`, on `fuel` more scan
positions: a maximal run of two or more whitespace characters becomes a
single space; lone whitespace characters and everything else pass through.
Every step consumes at least one input character, so starting with
`fuel = l.length` (as `collapseSpaces` does) the fuel never runs out. -/
def collapseSpacesGo : Nat → List Char → List Char
  | 0, l => l
  | _ + 1, [] => []
  | _ + 1, [c] => [c]
  | fuel + 1, c :: c2 :: rest =>
    if jsWhitespace c then
      if jsWhitespace c2 then
        ' ' :: collapseSpacesGo fuel ((c2 :: rest).dropWhile jsWhitespace)
      else
        c :: collapseSpacesGo fuel (c2 :: rest)
    else
      c :: collapseSpacesGo fuel (c2 :: rest)

/-- The second regex pass over a whole character list. -/
def collapseSpaces (l : List Char) : List Char :=
  collapseSpacesGo l.length l

/-- `String.prototype.trim` on a character list: strip leading and trailing
JS whitespace (trailing removal via `List.rdropWhile`). -/
def trimChars (l : List Char) : List Char :=
  (l.dropWhile jsWhitespace).rdropWhile jsWhitespace

/-- `cleanResponse` from optimization.js: collapse blank lines, collapse
whitespace runs, trim. -/
def cleanResponse (rawText : String) : String :=
  String.mk (trimChars (collapseSpaces (collapseBlankLines rawText.toList)))

/-! ## The editor submit flow (frontend/src/components/ClaudeEditor.jsx) -/

/-- What `handleSubmit` leaves behind: on success the cleaned content that is
set as the result (its HTML formatting by `formatEditorial` being a pure
presentation step the spec places outside the core), on failure the message
of the error that was caught (the UI then shows a fixed error line). -/
inductive SubmitOutcome
  | success (cleanedContent : String)
  | failure (caughtMsg : String)

/-- `handleSubmit` from ClaudeEditor.jsx: submit the prompt through
`submitPromptToClaude`, validate the returned payload with
`isValidResponse`, extract its content, require it truthy, and clean it.
Returns the outcome together with the number of upstream calls performed.
The prompt text itself does not steer this control flow. -/
def handleSubmit (upstream : Nat → FetchResult) : SubmitOutcome × Nat :=
  let r := submitPromptToClaude upstream
  match r.result with
  | .error e => (.failure e, r.calls)
  | .ok raw =>
    if !(isValidResponse raw) then
      (.failure "Invalid response format from Claude API", r.calls)
    else
      let content := extractContent raw
      if !content.truthy then
        (.failure "No valid content received from Claude API", r.calls)
      else
        (.success (cleanResponse content.asString), r.calls)

/-! ## The App submit flow (frontend App.js, src/unnamed/part_002) -/

/-- The single `fetch('/claude', …)` of App.js, which never checks
`res.ok`: the promise either resolves with a parsed JSON body (whatever the
status) or rejects with a network error. -/
inductive AppFetch
  | resolved (body : JSValue)
  | rejected (msg : String)

/-- What App.js's `handleSubmit` displays. -/
inductive AppOutcome
  | noop
  | errorShown
  | textShown (text : String)
  | invalidShown

/-- `handleSubmit` from App.js: guard `if (!prompt.trim()) return;`, then one
fetch; a body with a truthy `error` field or a rejected fetch shows an error,
a body matching `{content:[{text: string}, …]}` (with `content[0]` an
object) shows the text, anything else shows `'No valid response received'`.
Returns the outcome and the number of upstream calls made. -/
def appHandleSubmit (prompt : String) (upstream : AppFetch) : AppOutcome × Nat :=
  if String.mk (trimChars prompt.toList) = "" then
    (.noop, 0)
  else
    match upstream with
    | .rejected _ => (.errorShown, 1)
    | .resolved data =>
      if (data.getField "error").truthy then
        (.errorShown, 1)
      else if data.truthy && data.typeofIsObject &&
          (data.getField "content").isArrayV &&
          (data.getField "content").index0.truthy &&
          (data.getField "content").index0.typeofIsObject &&
          ((data.getField "content").index0.getField "text").typeofIsString then
        (.textShown ((data.getField "content").index0.getField "text").asString, 1)
      else
        (.invalidShown, 1)

/-! ## Session logging (frontend/src/sessionLogger.js and
frontend/src/services/sessionLogger.js) -/

/-- The one awaited post inside `logSession`: the promise resolves or
rejects with an error message (for the fetch variant a rejection is a
network failure; for the axios variant also a non-2xx status). -/
inductive PostOutcome
  | resolved
  | rejected (msg : String)

/-- The `try` block of the fetch-based `logSession`
(frontend/src/sessionLogger.js) before its `catch`: await the post,
propagating a rejection. -/
def logSessionBody (post : PostOutcome) : Except String Unit :=
  match post with
  | .resolved => .ok ()
  | .rejected msg => .error msg

/-- `logSession` from frontend/src/sessionLogger.js: the body wrapped in
`try { … } catch (e) { console.warn(…) }`, which swallows any rejection. -/
def logSession (post : PostOutcome) : Except String Unit :=
  match logSessionBody post with
  | .ok u => .ok u
  | .error _ => .ok ()

/-- The `try` block of the axios-based `logSession`
(frontend/src/services/sessionLogger.js) before its `catch`. -/
def logSessionSvcBody (post : PostOutcome) : Except String Unit :=
  match post with
  | .resolved => .ok ()
  | .rejected msg => .error msg

/-- `logSession` from frontend/src/services/sessionLogger.js: the body
wrapped in `try { … } catch (err) { console.error(…) }`. -/
def logSessionSvc (post : PostOutcome) : Except String Unit :=
  match logSessionSvcBody post with
  | .ok u => .ok u
  | .error _ => .ok ()

/-! ## The backend token-bucket limiter and request handler

The Python backend (`backend/main.py` and the limiter it uses) is not part
of the repository snapshot — only the README's description and the spec
document it — so the definitions below are modelled from the spec. -/

/-- Modelled from the spec: the per-ClientKey `BucketState`
`{ tokens: float, lastRefillAt: timestamp }` of the backend limiter, which is
missing from the snapshot.  Times and token counts are rationals, standing
for the fractional quantities the spec describes. -/
structure BucketState where
  tokens : ℚ
  lastRefillAt : ℚ

/-- Modelled from the spec: the refill step of the backend limiter — on each
call, tokens are recomputed as `min(capacity, tokens + elapsedSeconds / 5)`
with capacity 5, and `lastRefillAt` advances to now. -/
def refillBucket (b : BucketState) (now : ℚ) : BucketState :=
  { tokens := min 5 (b.tokens + (now - b.lastRefillAt) / 5), lastRefillAt := now }

/-- Modelled from the spec: `admit(clientKey)` of the backend limiter —
refill, then consume exactly one token when `tokens ≥ 1`, else deny with no
side effect beyond the refill update. -/
def admitCall (b : BucketState) (now : ℚ) : Bool × BucketState :=
  let b1 := refillBucket b now
  if 1 ≤ b1.tokens then (true, { b1 with tokens := b1.tokens - 1 }) else (false, b1)

/-- Modelled from the spec: a freshly created bucket holds its full capacity
of 5 tokens (a fresh ClientKey's first 5 requests are all admitted). -/
def initBucket (now : ℚ) : BucketState :=
  { tokens := 5, lastRefillAt := now }

/-- The trace of bucket states produced by a sequence of `admit` calls, each
made `d` seconds after the previous one (`d` drawn from `ds`). -/
def runAdmits (b : BucketState) : List ℚ → List BucketState
  | [] => []
  | d :: ds =>
    let b' := (admitCall b (b.lastRefillAt + d)).2
    b' :: runAdmits b' ds

/-- Modelled from the spec: the spec's `normalize(rawPayload)` of the
backend Normalizer — accept `{content: string}` or
`{content: [{text: string}, …]}` (taking the first element's `text`), reject
every other shape. -/
def specNormalize (rawPayload : JSValue) : Except String String :=
  match rawPayload.getField "content" with
  | .vStr s => .ok s
  | .vArr (first :: _) =>
    match first.getField "text" with
    | .vStr t => .ok t
    | _ => .error "InvalidShape"
  | _ => .error "InvalidShape"

/-- Modelled from the spec: the typed result the backend request handler
produces. -/
inductive GatewayResult
  | ok (text : String)
  | rateLimited
  | badRequest (reason : String)
  | upstreamError (status : Nat) (detail : String)

/-- Modelled from the spec: one backend upstream attempt's outcome as the
spec's `call(prompt)` classifies it. -/
inductive SpecAttempt
  | success2xx (body : JSValue)
  | httpFailure (status : Nat) (message : String)
  | networkOrTimeout (message : String)

/-- Modelled from the spec: the backend `callWithRetry(prompt, maxAttempts=3,
baseDelayMs=1000)` — status 400/401 is fatal and returned immediately; any
other failure is retryable, waiting `baseDelayMs * attemptNumber` before the
next attempt while attempts remain; a 2xx body goes through the Normalizer,
whose rejection is not retried; on exhaustion the last outcome is the error.
Returns the result, the number of calls, and the backoff waits in order. -/
def specCallLoop (upstream : Nat → SpecAttempt) (maxAttempts baseDelayMs : Nat) :
    Nat → Nat → Except (Nat × String) String × Nat × List Nat
  | 0, _ => (.error (0, "no attempts"), 0, [])
  | remaining + 1, attempt =>
    match upstream attempt with
    | .success2xx body =>
      match specNormalize body with
      | .ok text => (.ok text, 1, [])
      | .error e => (.error (200, e), 1, [])
    | .httpFailure status message =>
      if status = 400 || status = 401 then
        (.error (status, message), 1, [])
      else if attempt < maxAttempts then
        let (r, calls, waits) := specCallLoop upstream maxAttempts baseDelayMs remaining (attempt + 1)
        (r, calls + 1, baseDelayMs * attempt :: waits)
      else
        (.error (status, message), 1, [])
    | .networkOrTimeout message =>
      if attempt < maxAttempts then
        let (r, calls, waits) := specCallLoop upstream maxAttempts baseDelayMs remaining (attempt + 1)
        (r, calls + 1, baseDelayMs * attempt :: waits)
      else
        (.error (0, message), 1, [])

/-- Entry point of the spec's `callWithRetry`: attempts start at 1, with
`maxAttempts` of them allowed. -/
def specCallWithRetry (upstream : Nat → SpecAttempt) (maxAttempts : Nat := 3)
    (baseDelayMs : Nat := 1000) : Except (Nat × String) String × Nat × List Nat :=
  specCallLoop upstream maxAttempts baseDelayMs maxAttempts 1

/-- Modelled from the spec: the backend request handler for `POST /generate`
— an empty-after-trim prompt is a `BadRequest` with no limiter consultation,
no token consumption and no upstream call; a limiter denial is
`RateLimited`; otherwise one `callWithRetry` decides the outcome.  Returns
the result, the bucket state afterwards, and the number of upstream calls. -/
def handleGenerate (prompt : String) (b : BucketState) (now : ℚ)
    (upstream : Nat → SpecAttempt) : GatewayResult × BucketState × Nat :=
  if String.mk (trimChars prompt.toList) = "" then
    (.badRequest "prompt must not be empty", b, 0)
  else
    match admitCall b now with
    | (false, b1) => (.rateLimited, b1, 0)
    | (true, b1) =>
      match specCallWithRetry upstream with
      | (.ok text, calls, _) => (.ok text, b1, calls)
      | (.error (status, detail), calls, _) => (.upstreamError status detail, b1, calls)

/-! ## Derived notions used by the theorems -/

/-- The message of the error attempt `k` throws, `""` for a success. -/
def errMsgOf (f : FetchResult) : String :=
  (attemptErrMsg f).getD ""

/-- The attempt failed (threw). -/
def isFailure (f : FetchResult) : Bool :=
  (attemptErrMsg f).isSome

/-- The attempt failed and the retry loop of `submitPromptToClaude` retries
it: its error message contains neither `'400'` nor `'401'`. -/
def isRetryableFailure (f : FetchResult) : Bool :=
  match attemptErrMsg f with
  | none => false
  | some msg => !(jsIncludes msg "400" || jsIncludes msg "401")

/-- No two adjacent characters of `l` are both JS whitespace. -/
def NoWsRun (l : List Char) : Prop :=
  l.Chain' (fun a b => ¬(jsWhitespace a = true ∧ jsWhitespace b = true))

/-! # Theorems -/

/-- Running the retry loop across `j` consecutive retryable failures
performs `j` calls and `j` backoff sleeps and continues the loop `j`
attempts further on, with the last failure's message as the pending
error. -/
theorem submitLoop_skip (upstream : Nat → FetchResult) (delay : Nat) :
    ∀ (j remaining attempt : Nat) (lastErr : String) (calls : Nat) (sleeps : List Nat),
      j ≤ remaining →
      (∀ k, attempt ≤ k → k < attempt + j → isRetryableFailure (upstream k) = true) →
      submitLoop upstream delay remaining attempt lastErr calls sleeps =
        submitLoop upstream delay (remaining - j) (attempt + j)
          (if j = 0 then lastErr else errMsgOf (upstream (attempt + j - 1)))
          (calls + j)
          (sleeps ++ (List.range j).map (fun i => delay * (attempt + i))) := by
  intro j
  induction j with
  | zero => intro remaining attempt lastErr calls sleeps _ _; simp
  | succ j ih =>
    intro remaining attempt lastErr calls sleeps hle h
    obtain ⟨r, rfl⟩ : ∃ r, remaining = r + 1 := ⟨remaining - 1, by omega⟩
    have hat : isRetryableFailure (upstream attempt) = true :=
      h attempt le_rfl (by omega)
    have hstep :
        submitLoop upstream delay (r + 1) attempt lastErr calls sleeps =
          submitLoop upstream delay r (attempt + 1) (errMsgOf (upstream attempt))
            (calls + 1) (sleeps ++ [delay * attempt]) := by
      cases hu : upstream attempt with
      | ok body =>
        rw [hu] at hat
        simp [isRetryableFailure, attemptErrMsg] at hat
      | httpError status detail statusText =>
        rw [hu] at hat
        simp only [isRetryableFailure, attemptErrMsg, Bool.not_eq_true'] at hat
        simp [submitLoop, hu, hat, errMsgOf, attemptErrMsg]
      | networkError msg =>
        rw [hu] at hat
        simp only [isRetryableFailure, attemptErrMsg, Bool.not_eq_true'] at hat
        simp [submitLoop, hu, hat, errMsgOf, attemptErrMsg]
    rw [hstep,
      ih r (attempt + 1) (errMsgOf (upstream attempt)) (calls + 1) (sleeps ++ [delay * attempt])
        (by omega) (by intro k hk1 hk2; exact h k (by omega) (by omega))]
    have harith : r + 1 - (j + 1) = r - j := by omega
    have hidx : attempt + 1 + j = attempt + (j + 1) := by omega
    rw [harith, hidx]
    rw [show calls + 1 + j = calls + (j + 1) from by omega]
    rw [if_neg (Nat.succ_ne_zero j)]
    rw [show attempt + (j + 1) - 1 = attempt + j from by omega]
    have hif : (if j = 0 then errMsgOf (upstream attempt)
          else errMsgOf (upstream (attempt + j))) = errMsgOf (upstream (attempt + j)) := by
      by_cases hj : j = 0
      · subst hj; simp
      · rw [if_neg hj]
    rw [hif]
    have hsleeps : sleeps ++ [delay * attempt] ++
          (List.range j).map (fun i => delay * (attempt + 1 + i)) =
        sleeps ++ (List.range (j + 1)).map (fun i => delay * (attempt + i)) := by
      rw [List.append_assoc]
      congr 1
      rw [List.range_succ_eq_map, List.map_cons, List.map_map]
      simp only [Nat.add_zero, List.singleton_append, List.cons.injEq]
      refine ⟨by trivial, ?_⟩
      apply List.map_congr_left
      intro i _
      simp only [Function.comp_apply, Nat.succ_eq_add_one]
      congr 1
      omega
    rw [hsleeps]

/-- C1: the claim says a first-attempt HTTP 400 or 401 causes exactly one
upstream call with no backoff.  The code violates this: the status-specific
`userMessage` it throws for a 400 (`"Invalid request: …"`) no longer
contains the digits `'400'` that the retry guard `err.message.includes('400')`
greps for (the server's status text `"Bad Request"` does not either), so the
break never fires and the client performs all 3 attempts with backoff sleeps
1000, 2000 and 3000 ms — contradicting the code's own comment
`// Don't retry on client errors (4xx)`.  The same holds for 401 with status
text `"Unauthorized"`. -/
theorem C1_fatal400_retried_eval :
    (submitPromptToClaude (fun _ => .httpError 400 "" "Bad Request")).calls = 3 ∧
    (submitPromptToClaude (fun _ => .httpError 400 "" "Bad Request")).sleeps =
      [1000, 2000, 3000] ∧
    (submitPromptToClaude (fun _ => .httpError 401 "" "Unauthorized")).calls = 3 ∧
    jsIncludes (errorMessageFor 400 "" "Bad Request") "400" = false ∧
    jsIncludes (errorMessageFor 401 "" "Unauthorized") "401" = false := by
  refine ⟨rfl, rfl, rfl, ?_, ?_⟩ <;> decide

/-- C2 counterexample: with every attempt failing with 503 (status text
`"Service Unavailable"`, empty error body), the client performs the claimed
3 calls but 3 backoff waits of 1000, 2000 and 3000 ms — one after the final
failed attempt — not the claimed maxAttempts-1 = 2 waits. -/
theorem C2_counterexample :
    (submitPromptToClaude (fun _ => .httpError 503 "" "Service Unavailable")).calls = 3 ∧
    (submitPromptToClaude (fun _ => .httpError 503 "" "Service Unavailable")).sleeps =
      [1000, 2000, 3000] ∧
    (submitPromptToClaude (fun _ => .httpError 503 "" "Service Unavailable")).sleeps.length
      ≠ 3 - 1 := by
  refine ⟨rfl, rfl, ?_⟩; decide

/-- C2 (amended): if every attempt fails with a retryable outcome, the
retrying client performs exactly `retries` (default 3) calls and exactly
`retries` backoff waits, the wait after attempt k lasting `delay * k` —
including a wait after the final failed attempt (defaults: 1000 ms, 2000 ms
and 3000 ms). -/
theorem C2_retry_exhaustion (upstream : Nat → FetchResult) (retries delay : Nat)
    (h : ∀ k, 1 ≤ k → k ≤ retries → isRetryableFailure (upstream k) = true) :
    (submitPromptToClaude upstream retries delay).calls = retries ∧
    (submitPromptToClaude upstream retries delay).sleeps =
      (List.range retries).map (fun i => delay * (1 + i)) := by
  unfold submitPromptToClaude
  rw [submitLoop_skip upstream delay retries retries 1 "" 0 [] le_rfl
    (by intro k hk1 hk2; exact h k hk1 (by omega))]
  simp [submitLoop]

/-- Witness for C2: all three attempts return 500. -/
theorem C2_retry_exhaustion_witness :
    (submitPromptToClaude (fun _ => .httpError 500 "" "Internal Server Error")).calls = 3 ∧
    (submitPromptToClaude (fun _ => .httpError 500 "" "Internal Server Error")).sleeps =
      (List.range 3).map (fun i => 1000 * (1 + i)) :=
  C2_retry_exhaustion _ 3 1000 (fun _ _ _ => by decide)

/-- C5: when all `retries` attempts are made and fail (the first
`retries - 1` retryably — otherwise the loop stops early — and the last in
any failing way), the thrown error is exactly the last attempt's error
message, with exactly `retries` calls performed; no success is returned. -/
theorem C5_last_outcome (upstream : Nat → FetchResult) (retries delay : Nat)
    (h1 : 1 ≤ retries)
    (hmid : ∀ k, 1 ≤ k → k < retries → isRetryableFailure (upstream k) = true)
    (hlast : isFailure (upstream retries) = true) :
    (submitPromptToClaude upstream retries delay).result =
      .error (errMsgOf (upstream retries)) ∧
    (submitPromptToClaude upstream retries delay).calls = retries := by
  unfold submitPromptToClaude
  rw [submitLoop_skip upstream delay (retries - 1) retries 1 "" 0 [] (by omega)
    (by intro k hk1 hk2; exact hmid k hk1 (by omega))]
  rw [show retries - (retries - 1) = 1 from by omega]
  rw [show 1 + (retries - 1) = retries from by omega]
  cases hu : upstream retries with
  | ok body =>
    rw [hu] at hlast
    simp [isFailure, attemptErrMsg] at hlast
  | httpError status detail statusText =>
    by_cases hf : (jsIncludes (errorMessageFor status detail statusText) "400" ||
        jsIncludes (errorMessageFor status detail statusText) "401") = true
    · simp [submitLoop, hu, hf, errMsgOf, attemptErrMsg]
      omega
    · simp only [Bool.not_eq_true] at hf
      simp [submitLoop, hu, hf, errMsgOf, attemptErrMsg]
      omega
  | networkError msg =>
    by_cases hf : (jsIncludes msg "400" || jsIncludes msg "401") = true
    · simp [submitLoop, hu, hf, errMsgOf, attemptErrMsg]
      omega
    · simp only [Bool.not_eq_true] at hf
      simp [submitLoop, hu, hf, errMsgOf, attemptErrMsg]
      omega

/-- Witness for C5: two 503s then a network failure; the thrown error is the
network failure's message after exactly 3 calls. -/
theorem C5_last_outcome_witness :
    (submitPromptToClaude
        (fun k => if k < 3 then .httpError 503 "" "Service Unavailable"
          else .networkError "socket hang up")).result =
      .error (errMsgOf ((fun k => if k < 3 then .httpError 503 "" "Service Unavailable"
          else FetchResult.networkError "socket hang up") 3)) ∧
    (submitPromptToClaude
        (fun k => if k < 3 then .httpError 503 "" "Service Unavailable"
          else .networkError "socket hang up")).calls = 3 :=
  C5_last_outcome _ 3 1000 (by decide)
    (by intro k hk1 hk2; interval_cases k <;> decide) (by decide)

/-- C3: the accepted shapes, tried in order, match the reference vectors —
`{content:"hello"}` is valid with content `"hello"`; `{content:[{text:"hi"}]}`
is valid with the first element's text `"hi"`; `{content:[]}` and `{}` are
invalid; and in general a payload with a missing `content` field, an empty
`content` array, or a non-string first `text` is rejected by the validator
and yields no content. -/
theorem C3_shape_acceptance :
    (isValidResponse (vObj [("content", vStr "hello")]) = true ∧
      extractContent (vObj [("content", vStr "hello")]) = vStr "hello") ∧
    (isValidResponse (vObj [("content", vArr [vObj [("text", vStr "hi")]])]) = true ∧
      extractContent (vObj [("content", vArr [vObj [("text", vStr "hi")]])]) = vStr "hi") ∧
    isValidResponse (vObj [("content", vArr [])]) = false ∧
    isValidResponse (vObj ([] : List (String × JSValue))) = false ∧
    (∀ fields : List (String × JSValue), fields.lookup "content" = none →
      isValidResponse (vObj fields) = false ∧ extractContent (vObj fields) = vNull) ∧
    (∀ fields : List (String × JSValue), fields.lookup "content" = some (vArr []) →
      isValidResponse (vObj fields) = false ∧ extractContent (vObj fields) = vNull) ∧
    (∀ (fields : List (String × JSValue)) (x : JSValue) (rest : List JSValue),
      fields.lookup "content" = some (vArr (x :: rest)) →
      (x.getField "text").typeofIsString = false →
      isValidResponse (vObj fields) = false ∧ extractContent (vObj fields) = vNull) := by
  refine ⟨⟨rfl, rfl⟩, ⟨rfl, rfl⟩, rfl, rfl, ?_, ?_, ?_⟩
  · intro fields hl
    have hg : (vObj fields).getField "content" = vNull := by simp [getField, hl]
    constructor
    · simp [isValidResponse, hg, truthy, typeofIsString, isArrayV]
    · simp [extractContent, hg, typeofIsString, isArrayV]
  · intro fields hl
    have hg : (vObj fields).getField "content" = vArr [] := by simp [getField, hl]
    constructor
    · simp [isValidResponse, hg, truthy, typeofIsString, isArrayV, index0]
    · simp [extractContent, hg, typeofIsString, isArrayV, index0, truthy]
  · intro fields x rest hl ht
    have hg : (vObj fields).getField "content" = vArr (x :: rest) := by simp [getField, hl]
    have e1 : (vArr (x :: rest)).typeofIsString = false := rfl
    have e2 : (vArr (x :: rest)).isArrayV = true := rfl
    have e3 : (vArr (x :: rest)).index0 = x := rfl
    constructor
    · simp [isValidResponse, hg, e1, e2, e3, ht]
    · simp [extractContent, hg, e1, e2, e3, ht]

/-- Witness for C3: a payload without `content`, and one whose first block's
`text` is the number 42, are both rejected. -/
theorem C3_shape_acceptance_witness :
    (isValidResponse (vObj [("foo", vStr "bar")]) = false ∧
      extractContent (vObj [("foo", vStr "bar")]) = vNull) ∧
    (isValidResponse (vObj [("content", vArr [vObj [("text", vNum 42)]])]) = false ∧
      extractContent (vObj [("content", vArr [vObj [("text", vNum 42)]])]) = vNull) :=
  ⟨C3_shape_acceptance.2.2.2.2.1 [("foo", vStr "bar")] rfl,
    C3_shape_acceptance.2.2.2.2.2.2 [("content", vArr [vObj [("text", vNum 42)]])]
      (vObj [("text", vNum 42)]) [] rfl rfl⟩

/-- C4: if the first upstream call returns a 2xx body that fails shape
validation, the editor flow ends in the invalid-format error after exactly
one upstream call and no backoff sleep — a malformed 2xx body is never
retried. -/
theorem C4_malformed_2xx (body : JSValue) (upstream : Nat → FetchResult)
    (hv : isValidResponse body = false) (hu : upstream 1 = .ok body) :
    handleSubmit upstream = (.failure "Invalid response format from Claude API", 1) ∧
    (submitPromptToClaude upstream).sleeps = [] := by
  unfold handleSubmit submitPromptToClaude
  rw [show (3 : Nat) = 2 + 1 from rfl]
  simp [submitLoop, hu, hv]

/-- Witness for C4: upstream answers `200 {"foo":"bar"}`. -/
theorem C4_malformed_2xx_witness :
    handleSubmit (fun _ => .ok (vObj [("foo", vStr "bar")])) =
      (.failure "Invalid response format from Claude API", 1) ∧
    (submitPromptToClaude (fun _ => .ok (vObj [("foo", vStr "bar")]))).sleeps = [] :=
  C4_malformed_2xx (vObj [("foo", vStr "bar")]) _ rfl rfl

/-- C8: the payload `{content: ""}` is classified as invalid —
`isValidResponse` is false on it (the empty string is falsy), the extracted
content is falsy, and an upstream 2xx response carrying it makes the editor
flow fail rather than succeed with an empty text. -/
theorem C8_empty_string_content :
    isValidResponse (vObj [("content", vStr "")]) = false ∧
    (extractContent (vObj [("content", vStr "")])).truthy = false ∧
    handleSubmit (fun _ => .ok (vObj [("content", vStr "")])) =
      (.failure "Invalid response format from Claude API", 1) :=
  ⟨rfl, rfl, rfl⟩

/-- C10: `logSession` (both the fetch variant and the axios variant) returns
normally whatever the underlying post does — its `catch` swallows every
failure, so a logging failure can never abort the surrounding flow. -/
theorem C10_logSession_total (post : PostOutcome) :
    logSession post = .ok () ∧ logSessionSvc post = .ok () := by
  cases post <;> exact ⟨rfl, rfl⟩

/-- Witness for C10: a rejected post is swallowed. -/
theorem C10_logSession_total_witness :
    logSession (.rejected "ECONNREFUSED") = .ok () ∧
    logSessionSvc (.rejected "ECONNREFUSED") = .ok () :=
  C10_logSession_total (.rejected "ECONNREFUSED")

/-- C6: a prompt that is empty after trimming is rejected before anything
else happens — the (spec-modelled) backend handler returns `BadRequest` with
the bucket untouched and zero upstream calls, and App.js's `handleSubmit`
guard returns without issuing its fetch. -/
theorem C6_empty_prompt_rejected (prompt : String)
    (h : String.mk (trimChars prompt.toList) = "")
    (b : BucketState) (now : ℚ) (upstream : Nat → SpecAttempt) (ufetch : AppFetch) :
    handleGenerate prompt b now upstream = (.badRequest "prompt must not be empty", b, 0) ∧
    appHandleSubmit prompt ufetch = (.noop, 0) := by
  constructor
  · unfold handleGenerate
    rw [if_pos h]
  · unfold appHandleSubmit
    rw [if_pos h]

/-- Witness for C6: the whitespace-only prompt `"  "`. -/
theorem C6_empty_prompt_rejected_witness :
    handleGenerate "  " ⟨5, 0⟩ 0 (fun _ => .networkOrTimeout "boom") =
      (.badRequest "prompt must not be empty", ⟨5, 0⟩, 0) ∧
    appHandleSubmit "  " (.rejected "boom") = (.noop, 0) :=
  C6_empty_prompt_rejected "  " rfl ⟨5, 0⟩ 0 _ _

/-- C7: for every start state within bounds and every sequence of `admit`
calls at non-negative elapsed times, every bucket state along the trace
satisfies `0 ≤ tokens ≤ 5` — the refill `min(5, tokens + elapsed/5)` never
overshoots the capacity and consumption never drives the count negative. -/
theorem C7_bucket_bounds (b : BucketState) (h0 : 0 ≤ b.tokens) (h5 : b.tokens ≤ 5)
    (ds : List ℚ) (hds : ∀ d ∈ ds, 0 ≤ d) :
    ∀ s ∈ runAdmits b ds, 0 ≤ s.tokens ∧ s.tokens ≤ 5 := by
  induction ds generalizing b with
  | nil => simp [runAdmits]
  | cons d ds ih =>
    have hd : 0 ≤ d := hds d (by simp)
    have hstep : 0 ≤ ((admitCall b (b.lastRefillAt + d)).2).tokens ∧
        ((admitCall b (b.lastRefillAt + d)).2).tokens ≤ 5 := by
      unfold admitCall refillBucket
      have helapsed : b.lastRefillAt + d - b.lastRefillAt = d := by ring
      rw [helapsed]
      have hx0 : (0 : ℚ) ≤ min 5 (b.tokens + d / 5) := by
        apply le_min (by norm_num)
        have : (0 : ℚ) ≤ d / 5 := by positivity
        linarith
      have hx5 : min 5 (b.tokens + d / 5) ≤ (5 : ℚ) := min_le_left _ _
      by_cases hge : (1 : ℚ) ≤ min 5 (b.tokens + d / 5)
      · rw [if_pos hge]
        constructor
        · simp only []
          linarith
        · simp only []
          linarith
      · rw [if_neg hge]
        exact ⟨hx0, hx5⟩
    intro s hs
    rw [runAdmits] at hs
    rcases List.mem_cons.mp hs with hseq | hmem
    · subst hseq
      exact hstep
    · exact ih _ hstep.1 hstep.2 (fun e he => hds e (List.mem_cons_of_mem d he)) s hmem

/-- Witness for C7: one admit from a fresh full bucket with no elapsed time
lands on 4 tokens, within bounds. -/
theorem C7_bucket_bounds_witness :
    0 ≤ (BucketState.mk 4 0).tokens ∧ (BucketState.mk 4 0).tokens ≤ 5 :=
  C7_bucket_bounds ⟨5, 0⟩ (by norm_num) (by norm_num) [0]
    (by intro d hd; simp at hd; simp [hd])
    ⟨4, 0⟩ (by norm_num [runAdmits, admitCall, refillBucket])

/-! ### Helper lemmas for `cleanResponse` (claim C9) -/

theorem collapseSpacesGo_nil : ∀ f, collapseSpacesGo f [] = [] := by
  intro f; cases f <;> rfl

theorem collapseBlankLinesGo_nil : ∀ f, collapseBlankLinesGo f [] = [] := by
  intro f; cases f <;> rfl

/-- The head surviving `dropWhile jsWhitespace` is not whitespace. -/
theorem head?_dropWhile_not_ws :
    ∀ (l : List Char) (d : Char),
      (l.dropWhile jsWhitespace).head? = some d → jsWhitespace d = false := by
  intro l
  induction l with
  | nil => intro d h; simp [List.dropWhile] at h
  | cons c t ih =>
    intro d h
    rw [List.dropWhile_cons] at h
    by_cases hc : jsWhitespace c = true
    · rw [if_pos hc] at h
      exact ih d h
    · rw [if_neg hc] at h
      simp only [List.head?_cons, Option.some.injEq] at h
      subst h
      simpa using hc

/-- `collapseSpacesGo` keeps a non-whitespace head character in place. -/
theorem collapseSpacesGo_head (fuel : Nat) (t : List Char) (c : Char)
    (hh : t.head? = some c) (hc : jsWhitespace c = false) :
    (collapseSpacesGo fuel t).head? = some c := by
  cases fuel with
  | zero => simpa [collapseSpacesGo] using hh
  | succ f =>
    cases t with
    | nil => simp at hh
    | cons a t2 =>
      obtain rfl : a = c := by simpa using hh
      cases t2 with
      | nil => simp [collapseSpacesGo]
      | cons b t3 => simp [collapseSpacesGo, hc]

/-- The output of `collapseSpacesGo` (run with enough fuel) has no two
adjacent whitespace characters. -/
theorem noWsRun_collapseSpacesGo :
    ∀ (fuel : Nat) (l : List Char), l.length ≤ fuel → NoWsRun (collapseSpacesGo fuel l) := by
  intro fuel
  induction fuel with
  | zero =>
    intro l hl
    have : l = [] := List.eq_nil_of_length_eq_zero (Nat.le_zero.mp hl)
    subst this
    simp [collapseSpacesGo, NoWsRun]
  | succ f ih =>
    intro l hl
    cases l with
    | nil => simp [collapseSpacesGo, NoWsRun]
    | cons c t =>
      cases t with
      | nil => simp [collapseSpacesGo, NoWsRun]
      | cons c2 rest =>
        have hlen : (c2 :: rest).length ≤ f := by
          simp at hl ⊢; omega
        by_cases h1 : jsWhitespace c = true
        · by_cases h2 : jsWhitespace c2 = true
          · rw [show collapseSpacesGo (f + 1) (c :: c2 :: rest) =
                ' ' :: collapseSpacesGo f ((c2 :: rest).dropWhile jsWhitespace) from by
              simp [collapseSpacesGo, h1, h2]]
            have hsub : ((c2 :: rest).dropWhile jsWhitespace).length ≤ f := by
              have hsuf : List.IsSuffix ((c2 :: rest).dropWhile jsWhitespace) (c2 :: rest) :=
                List.dropWhile_suffix jsWhitespace
              have := hsuf.sublist.length_le
              omega
            have hrec := ih _ hsub
            rw [NoWsRun, List.chain'_cons']
            refine ⟨?_, hrec⟩
            intro y hy
            cases hh : ((c2 :: rest).dropWhile jsWhitespace).head? with
            | none =>
              have hnil : (c2 :: rest).dropWhile jsWhitespace = [] := by
                cases hemp : (c2 :: rest).dropWhile jsWhitespace with
                | nil => rfl
                | cons a b => rw [hemp] at hh; simp at hh
              rw [hnil, collapseSpacesGo_nil] at hy
              simp at hy
            | some d =>
              have hd : jsWhitespace d = false := head?_dropWhile_not_ws _ _ hh
              rw [collapseSpacesGo_head f _ d hh hd] at hy
              simp only [Option.mem_def, Option.some.injEq] at hy
              subst hy
              intro hcon
              rw [hd] at hcon
              exact Bool.false_ne_true hcon.2
          · have h2f : jsWhitespace c2 = false := by simpa using h2
            rw [show collapseSpacesGo (f + 1) (c :: c2 :: rest) =
                c :: collapseSpacesGo f (c2 :: rest) from by
              simp [collapseSpacesGo, h1, h2f]]
            have hrec := ih _ hlen
            rw [NoWsRun, List.chain'_cons']
            refine ⟨?_, hrec⟩
            intro y hy
            rw [collapseSpacesGo_head f (c2 :: rest) c2 rfl h2f] at hy
            simp only [Option.mem_def, Option.some.injEq] at hy
            subst hy
            intro hcon
            rw [h2f] at hcon
            exact Bool.false_ne_true hcon.2
        · have h1f : jsWhitespace c = false := by simpa using h1
          rw [show collapseSpacesGo (f + 1) (c :: c2 :: rest) =
              c :: collapseSpacesGo f (c2 :: rest) from by
            simp [collapseSpacesGo, h1f]]
          have hrec := ih _ hlen
          rw [NoWsRun, List.chain'_cons']
          refine ⟨?_, hrec⟩
          intro y hy
          intro hcon
          rw [h1f] at hcon
          exact Bool.false_ne_true hcon.1

/-- `matchTail` finds nothing when the scan starts at a non-whitespace
character (or at the end). -/
theorem matchTail_eq_none (l : List Char)
    (h : ∀ d, l.head? = some d → jsWhitespace d = false) : matchTail l = none := by
  cases l with
  | nil => rfl
  | cons c t =>
    have := h c rfl
    simp [matchTail, this]

/-- On input with no two adjacent whitespace characters, the second regex
pass changes nothing (no `\s{2,}` match exists). -/
theorem collapseSpacesGo_eq_self :
    ∀ (fuel : Nat) (l : List Char), NoWsRun l → collapseSpacesGo fuel l = l := by
  intro fuel
  induction fuel with
  | zero => intro l _; rfl
  | succ f ih =>
    intro l hl
    cases l with
    | nil => rfl
    | cons c t =>
      cases t with
      | nil => rfl
      | cons c2 rest =>
        have hR := (List.chain'_cons.mp hl).1
        have htail : NoWsRun (c2 :: rest) := (List.chain'_cons.mp hl).2
        by_cases h1 : jsWhitespace c = true
        · have h2 : jsWhitespace c2 = false := by
            cases hws2 : jsWhitespace c2 with
            | false => rfl
            | true => exact absurd ⟨h1, hws2⟩ hR
          simp [collapseSpacesGo, h1, h2, ih _ htail]
        · have h1f : jsWhitespace c = false := by simpa using h1
          simp [collapseSpacesGo, h1f, ih _ htail]

/-- On input with no two adjacent whitespace characters, the first regex
pass changes nothing (any `\r?\n\s*\r?\n` match would need two adjacent
whitespace characters). -/
theorem collapseBlankLinesGo_eq_self :
    ∀ (fuel : Nat) (l : List Char), NoWsRun l → collapseBlankLinesGo fuel l = l := by
  intro fuel
  induction fuel with
  | zero => intro l _; rfl
  | succ f ih =>
    intro l hl
    cases l with
    | nil => rfl
    | cons c t =>
      have htail : NoWsRun t := (List.chain'_cons'.mp hl).2
      by_cases hc : c = '\r'
      · subst hc
        cases t with
        | nil =>
          rw [show collapseBlankLinesGo (f + 1) ['\r'] =
              '\r' :: collapseBlankLinesGo f [] from by simp [collapseBlankLinesGo]]
          rw [collapseBlankLinesGo_nil]
        | cons c2 rest =>
          by_cases hc2 : c2 = '\n'
          · subst hc2
            have hR := (List.chain'_cons.mp hl).1
            exact absurd ⟨by decide, by decide⟩ hR
          · rw [show collapseBlankLinesGo (f + 1) ('\r' :: c2 :: rest) =
                '\r' :: collapseBlankLinesGo f (c2 :: rest) from by
              simp [collapseBlankLinesGo, hc2]]
            rw [ih _ htail]
      · by_cases hn : c = '\n'
        · subst hn
          have hmt : matchTail t = none := by
            apply matchTail_eq_none
            intro d hd
            cases t with
            | nil => simp at hd
            | cons e t2 =>
              have hed : e = d := by simpa using hd
              subst hed
              have hR := (List.chain'_cons.mp hl).1
              cases hw : jsWhitespace e with
              | false => rfl
              | true => exact absurd ⟨by decide, hw⟩ hR
          rw [show collapseBlankLinesGo (f + 1) ('\n' :: t) =
              '\n' :: collapseBlankLinesGo f t from by simp [collapseBlankLinesGo, hmt]]
          rw [ih _ htail]
        · rw [show collapseBlankLinesGo (f + 1) (c :: t) =
              c :: collapseBlankLinesGo f t from by simp [collapseBlankLinesGo, hc, hn]]
          rw [ih _ htail]

/-- Trimming preserves the no-whitespace-run property. -/
theorem noWsRun_trimChars (l : List Char) (h : NoWsRun l) : NoWsRun (trimChars l) := by
  unfold NoWsRun at h ⊢
  unfold trimChars
  have h1 := h.suffix (List.dropWhile_suffix jsWhitespace)
  exact h1.prefix ( List.rdropWhile_prefix jsWhitespace (l.dropWhile jsWhitespace))

/-- The trimmed list does not start with whitespace. -/
theorem trimChars_head_not_ws (l : List Char) (d : Char)
    (h : (trimChars l).head? = some d) : jsWhitespace d = false := by
  unfold trimChars at h
  have hne : (l.dropWhile jsWhitespace).rdropWhile jsWhitespace ≠ [] := by
    intro he; rw [he] at h; simp at h
  obtain ⟨t, ht⟩ := ( List.rdropWhile_prefix jsWhitespace (l.dropWhile jsWhitespace))
  have hmain : (l.dropWhile jsWhitespace).head? = some d := by
    rw [← ht, List.head?_append_of_ne_nil _ hne]
    exact h
  exact head?_dropWhile_not_ws l d hmain

/-- The trimmed list does not end with whitespace. -/
theorem trimChars_getLast_not_ws (l : List Char) (d : Char)
    (h : (trimChars l).getLast? = some d) : jsWhitespace d = false := by
  have hne : trimChars l ≠ [] := by
    intro he; rw [he] at h; simp at h
  have hlast := List.rdropWhile_last_not jsWhitespace (l.dropWhile jsWhitespace)
    (by exact hne)
  rw [List.getLast?_eq_getLast _ hne] at h
  simp only [Option.some.injEq] at h
  subst h
  simpa using hlast

/-- Trimming a list that neither starts nor ends with whitespace changes
nothing. -/
theorem trimChars_eq_self (l : List Char)
    (hh : ∀ d, l.head? = some d → jsWhitespace d = false)
    (hl : ∀ d, l.getLast? = some d → jsWhitespace d = false) : trimChars l = l := by
  unfold trimChars
  have h1 : l.dropWhile jsWhitespace = l := by
    rw [List.dropWhile_eq_self_iff]
    intro hpos
    cases l with
    | nil => simp at hpos
    | cons c t =>
      have := hh c rfl
      simp [this]
  rw [h1, List.rdropWhile_eq_self_iff]
  intro hne
  have := hl (l.getLast hne) (List.getLast?_eq_getLast l hne)
  simp [this]

/-- C9: `cleanResponse` is idempotent — one application leaves no run of two
or more whitespace characters and no leading or trailing whitespace, so a
second application changes nothing. -/
theorem C9_cleanResponse_idempotent (s : String) :
    cleanResponse (cleanResponse s) = cleanResponse s ∧
    NoWsRun (cleanResponse s).toList ∧
    (cleanResponse s).toList.head?.all (fun d => !jsWhitespace d) = true ∧
    (cleanResponse s).toList.getLast?.all (fun d => !jsWhitespace d) = true := by
  have hmid : NoWsRun (collapseSpaces (collapseBlankLines s.toList)) :=
    noWsRun_collapseSpacesGo _ _ le_rfl
  have hout : NoWsRun (trimChars (collapseSpaces (collapseBlankLines s.toList))) :=
    noWsRun_trimChars _ hmid
  have htl : (cleanResponse s).toList =
      trimChars (collapseSpaces (collapseBlankLines s.toList)) := rfl
  refine ⟨?_, ?_, ?_, ?_⟩
  · show String.mk (trimChars (collapseSpaces (collapseBlankLines (cleanResponse s).toList)))
      = cleanResponse s
    rw [htl]
    rw [show collapseBlankLines (trimChars (collapseSpaces (collapseBlankLines s.toList)))
        = trimChars (collapseSpaces (collapseBlankLines s.toList)) from
      collapseBlankLinesGo_eq_self _ _ hout]
    rw [show collapseSpaces (trimChars (collapseSpaces (collapseBlankLines s.toList)))
        = trimChars (collapseSpaces (collapseBlankLines s.toList)) from
      collapseSpacesGo_eq_self _ _ hout]
    rw [trimChars_eq_self _ (trimChars_head_not_ws _) (trimChars_getLast_not_ws _)]
    rfl
  · rw [htl]; exact hout
  · rw [htl]
    cases hh : (trimChars (collapseSpaces (collapseBlankLines s.toList))).head? with
    | none => rfl
    | some d => simp [Option.all, trimChars_head_not_ws _ d hh]
  · rw [htl]
    cases hh : (trimChars (collapseSpaces (collapseBlankLines s.toList))).getLast? with
    | none => rfl
    | some d => simp [Option.all, trimChars_getLast_not_ws _ d hh]

/-- Witness for C9: the idempotence instance at a concrete string. -/
theorem C9_cleanResponse_idempotent_witness :
    cleanResponse (cleanResponse "  hello   world\n\n\nfoo  ") =
      cleanResponse "  hello   world\n\n\nfoo  " :=
  (C9_cleanResponse_idempotent "  hello   world\n\n\nfoo  ").1

end LogiVault
